import Mathlib

/-!
Shallow embedding of the MLflow model-registry SQLAlchemy store
(`mlflow/store/model_registry/sqlalchemy_store.py`) and verification of its
specification.

The backing database is modelled as an explicit `Store` value holding the two
tables as lists of rows.  SQLAlchemy sessions are modelled by threading the
`Store` value through each operation; the managed-session scope
(`_get_managed_session_maker`, which is not part of the reviewed sources) is
modelled from the spec as commit-on-success / rollback-on-error, and each call
to it reports one opened scope so that transaction-scoping claims are statable.
Live mapped rows and their detached `to_mlflow_entity` snapshots coincide here:
rows are immutable Lean values, so returning a row value is already a detached
snapshot of the modelled columns.
-/

namespace MlflowRegistry

deriving instance DecidableEq for Except

/-- Error codes from `mlflow.protos.databricks_pb2` used by the store.  An
exception raised without an explicit code (the giving-up error in
`create_model_version`) carries `none`. -/
inductive ErrorCode where
  | INVALID_PARAMETER_VALUE
  | RESOURCE_ALREADY_EXISTS
  | INVALID_STATE
  | RESOURCE_DOES_NOT_EXIST
  deriving DecidableEq, Repr

/-- `mlflow.exceptions.MlflowException`: a message plus an optional error code. -/
structure MlflowException where
  message : String
  error_code : Option ErrorCode
  deriving DecidableEq, Repr

/-- Row of the `registered_models` table (`SqlRegisteredModel`).  The Python
`description` column is nullable, hence `Option`. -/
structure SqlRegisteredModel where
  name : String
  creation_time : Nat
  last_updated_time : Nat
  description : Option String := none
  deriving DecidableEq, Repr

/-- Row of the `model_versions` table (`SqlModelVersion`).  The
`current_stage` column defaults to "None" (column default of the dbmodels
module, per the spec's data model). -/
structure SqlModelVersion where
  name : String
  version : Nat
  creation_time : Nat
  last_updated_time : Nat
  source : String
  run_id : String
  current_stage : String := "None"
  description : Option String := none
  deriving DecidableEq, Repr

/-- The backing database: the two tables, each a list of rows. -/
structure Store where
  registered_models : List SqlRegisteredModel
  model_versions : List SqlModelVersion
  deriving DecidableEq, Repr

/-- `mlflow.store.entities.paged_list.PagedList`: items plus a continuation
token. -/
structure PagedList (α : Type) where
  items : List α
  token : Option String
  deriving DecidableEq, Repr

/-- One parsed clause of a model-registry search filter, as produced by
`SearchUtils.parse_filter_for_model_registry`: a comparator, a key and a
value. -/
structure FilterClause where
  key : String
  comparator : String
  value : String
  deriving DecidableEq, Repr

/-- Modelled from the spec: `_get_managed_session_maker`
(`mlflow.store.db.utils`) is not under the reviewed sources.  One call opens
one transaction scope: on normal exit the session state is committed, on any
error path the store is rolled back to its state at scope entry, and the
connection is released either way.  The third component counts the scopes this
call opened (always one). -/
def withManagedSession {α : Type} (store : Store)
    (body : Store → Except MlflowException (α × Store)) :
    Except MlflowException α × Store × Nat :=
  match body store with
  | .ok (a, s) => (.ok a, s, 1)
  | .error e => (.error e, store, 1)

/-- Modelled from the spec: the canonical stage set of
`mlflow.entities.model_registry.model_version_stages` (not under the reviewed
sources): None / Staging / Production / Archived. -/
def ALL_STAGES : List String := ["None", "Staging", "Production", "Archived"]

/-- ASCII lowercasing over the underlying character list (Python's
`str.lower()` for the stage names in play). -/
def lowerString (s : String) : String := ⟨s.data.map Char.toLower⟩

/-- Modelled from the spec: `get_canonical_stage` (not under the reviewed
sources) case-normalizes a stage string against the canonical set and rejects
unrecognized stage text with `INVALID_PARAMETER_VALUE` before persistence. -/
def get_canonical_stage (stage : String) : Except MlflowException String :=
  match ALL_STAGES.find? (fun c => lowerString c == lowerString stage) with
  | some c => .ok c
  | none =>
      .error ⟨s!"Invalid Model Version stage {stage}.",
              some .INVALID_PARAMETER_VALUE⟩

/-- Modelled from the spec: `DEFAULT_STAGES_FOR_GET_LATEST_VERSIONS` (not
under the reviewed sources): the two canonical stages denoting pre-production
and production. -/
def DEFAULT_STAGES_FOR_GET_LATEST_VERSIONS : List String :=
  ["Staging", "Production"]

/-- The `model_versions` relationship of a `SqlRegisteredModel` row: all
`model_versions` rows whose `name` column matches (the backreference of the
dbmodels module). -/
def modelVersionsOf (session : Store) (name : String) : List SqlModelVersion :=
  session.model_versions.filter (fun mv => mv.name == name)

/-- `_get_registered_model`: query all rows matching `name`; zero matches
raises `RESOURCE_DOES_NOT_EXIST`, more than one raises `INVALID_STATE`,
otherwise return the single row (`rms[0]`). -/
def _get_registered_model (session : Store) (name : String) :
    Except MlflowException SqlRegisteredModel :=
  let rms := session.registered_models.filter (fun rm => rm.name == name)
  match rms with
  | [] => .error ⟨s!"Registered Model with name={name} not found",
                  some .RESOURCE_DOES_NOT_EXIST⟩
  | [rm] => .ok rm
  | _ =>
      let n := rms.length
      .error ⟨s!"Expected only 1 registered model with name={name}. Found {n}.",
              some .INVALID_STATE⟩

/-- `_get_sql_model_version`: query all rows matching `(name, version)`; zero
matches raises `RESOURCE_DOES_NOT_EXIST`, more than one raises
`INVALID_STATE`, otherwise return the single row (`versions[0]`). -/
def _get_sql_model_version (session : Store) (name : String) (version : Nat) :
    Except MlflowException SqlModelVersion :=
  let versions := session.model_versions.filter
    (fun mv => mv.name == name && mv.version == version)
  match versions with
  | [] => .error ⟨s!"Model Version (name={name}, version{version}) not found",
                  some .RESOURCE_DOES_NOT_EXIST⟩
  | [v] => .ok v
  | _ =>
      let n := versions.length
      .error ⟨s!"Expected only 1 model version with (name={name}, version{version}). Found {n}.",
              some .INVALID_STATE⟩

/-- `create_registered_model(name)`: reject an empty name before opening a
session; inside the scope, insert the row, the flush raising an integrity
error (mapped to `RESOURCE_ALREADY_EXISTS`) when the `name` uniqueness
constraint is violated.  The empty-name rejection happens before any scope is
opened, hence the `0` scope count on that path.  (The Python `name is None`
test has no counterpart for a non-nullable Lean `String`.) -/
def create_registered_model (store : Store) (name : String) (now : Nat) :
    Except MlflowException SqlRegisteredModel × Store × Nat :=
  if name == "" then
    (.error ⟨"Registered model name cannot be empty.",
             some .INVALID_PARAMETER_VALUE⟩, store, 0)
  else
    withManagedSession store (fun session =>
      if session.registered_models.any (fun rm => rm.name == name) then
        .error ⟨s!"Registered Model (name={name}) already exists.",
                some .RESOURCE_ALREADY_EXISTS⟩
      else
        let registered_model : SqlRegisteredModel :=
          { name := name, creation_time := now, last_updated_time := now }
        .ok (registered_model,
             { session with
                 registered_models :=
                   session.registered_models ++ [registered_model] }))

/-- The `if description is not None:` update pattern: keep the stored value
unless a new one was supplied. -/
def updatedDescription (given stored : Option String) : Option String :=
  match given with
  | some d => some d
  | none => stored

/-- `update_registered_model(registered_model, new_name, description)`: look
up by current name; if `new_name` is given rename the model row and cascade
the new name to every owned version row in the same transaction; if
`description` is given update it; the flush raises an integrity error (mapped
to `RESOURCE_ALREADY_EXISTS`) when the new name collides with another
registered model's name. -/
def update_registered_model (store : Store) (name : String)
    (new_name : Option String) (description : Option String) :
    Except MlflowException SqlRegisteredModel × Store × Nat :=
  withManagedSession store (fun session => do
    let sql_registered_model ← _get_registered_model session name
    match new_name with
    | some nn =>
        if nn != sql_registered_model.name &&
            session.registered_models.any (fun rm => rm.name == nn) then
          .error ⟨s!"Registered Model (name={nn}) already exists.",
                  some .RESOURCE_ALREADY_EXISTS⟩
        else
          let updated : SqlRegisteredModel :=
            { sql_registered_model with
                name := nn,
                description := updatedDescription description sql_registered_model.description }
          .ok (updated,
               { registered_models := session.registered_models.map
                   (fun rm => if rm.name == sql_registered_model.name
                              then updated else rm),
                 model_versions := session.model_versions.map
                   (fun mv => if mv.name == sql_registered_model.name
                              then { mv with name := nn } else mv) })
    | none =>
        let updated : SqlRegisteredModel :=
          { sql_registered_model with
              description := updatedDescription description sql_registered_model.description }
        .ok (updated,
             { session with
                 registered_models := session.registered_models.map
                   (fun rm => if rm.name == sql_registered_model.name
                              then updated else rm) }))

/-- `delete_registered_model(registered_model)`: look up by name, then delete
the row; the dbmodels relationship cascades the delete to the owned version
rows (modelled from the spec: the cascade configuration lives in the dbmodels
module, not under the reviewed sources). -/
def delete_registered_model (store : Store) (name : String) :
    Except MlflowException Unit × Store × Nat :=
  withManagedSession store (fun session => do
    let sql_registered_model ← _get_registered_model session name
    .ok ((),
         { registered_models := session.registered_models.filter
             (fun rm => rm.name != sql_registered_model.name),
           model_versions := session.model_versions.filter
             (fun mv => mv.name != sql_registered_model.name) }))

/-- `list_registered_models()`: return a snapshot of every registered-model
row. -/
def list_registered_models (store : Store) :
    Except MlflowException (List SqlRegisteredModel) × Store × Nat :=
  withManagedSession store (fun session =>
    .ok (session.registered_models, session))

/-- `get_registered_model_details(registered_model)`: the by-name lookup,
returned as a detached snapshot. -/
def get_registered_model_details (store : Store) (name : String) :
    Except MlflowException SqlRegisteredModel × Store × Nat :=
  withManagedSession store (fun session => do
    let sql_registered_model ← _get_registered_model session name
    .ok (sql_registered_model, session))

/-- The element of a version-row list with the greatest `version` number
(ties resolved towards the earlier row; keys are unique in well-formed
stores). -/
def maxByVersion : List SqlModelVersion → Option SqlModelVersion
  | [] => none
  | mv :: rest =>
      match maxByVersion rest with
      | none => some mv
      | some best => if best.version > mv.version then some best else some mv

/-- Modelled from the spec: `SqlRegisteredModel.to_mlflow_detailed_entity`
(dbmodels module, not under the reviewed sources) computes `latest_versions`:
for each stage occurring among the model's versions, the version with the
highest `version` number currently in that stage. -/
def latest_versions (session : Store) (name : String) : List SqlModelVersion :=
  let mvs := modelVersionsOf session name
  ((mvs.map (fun mv => mv.current_stage)).dedup).filterMap
    (fun st => maxByVersion (mvs.filter (fun mv => mv.current_stage == st)))

/-- `get_latest_versions(registered_model, stages)`: look up the model,
project its `latest_versions`, canonicalize the requested stages (the default
pair when `stages` is `none` or empty), and keep the latest versions whose
current stage is among the requested ones. -/
def get_latest_versions (store : Store) (name : String)
    (stages : Option (List String)) :
    Except MlflowException (List SqlModelVersion) × Store × Nat :=
  withManagedSession store (fun session => do
    let sql_registered_model ← _get_registered_model session name
    let latest := latest_versions session sql_registered_model.name
    let expected_stages ←
      match stages with
      | none => DEFAULT_STAGES_FOR_GET_LATEST_VERSIONS.mapM get_canonical_stage
      | some l =>
          if l.length == 0 then
            DEFAULT_STAGES_FOR_GET_LATEST_VERSIONS.mapM get_canonical_stage
          else
            l.mapM get_canonical_stage
    .ok (latest.filter (fun mv => expected_stages.contains mv.current_stage),
         session))

/-- `CREATE_MODEL_VERSION_RETRIES`: the tunable retry bound of
`create_model_version`. -/
def CREATE_MODEL_VERSION_RETRIES : Nat := 3

/-- `next_version(sql_registered_model)`: `max` of the owned versions plus
one, or `1` when the model owns no versions. -/
def next_version (session : Store) (sql_registered_model : SqlRegisteredModel) :
    Nat :=
  let mvs := modelVersionsOf session sql_registered_model.name
  if mvs.isEmpty then 1
  else (mvs.map (fun mv => mv.version)).foldl max 0 + 1

/-- The body of `create_model_version`'s `for attempt in range(...)` loop,
running over the remaining attempt indices inside ONE session.  Each attempt
re-reads the model, recomputes `next_version` and inserts; the flush raises an
integrity error when the `(name, version)` uniqueness constraint is violated
or when the injected conflict oracle `conflictAt` reports a concurrent racer
for that attempt index.  A caught integrity error leaves the session as it
was (the insert did not persist) and control moves to the next attempt; any
other exception (the lookup's) propagates.  Falling off the end of the loop
returns `none`. -/
def create_model_version_loop (name source run_id : String) (now : Nat)
    (conflictAt : Nat → Bool) (session : Store) :
    List Nat → Except MlflowException (Option SqlModelVersion × Store)
  | [] => .ok (none, session)
  | attempt :: rest => do
      let sql_registered_model ← _get_registered_model session name
      let v := next_version session sql_registered_model
      let model_version : SqlModelVersion :=
        { name := name, version := v, creation_time := now,
          last_updated_time := now, source := source, run_id := run_id }
      if conflictAt attempt ||
          session.model_versions.any
            (fun mv => mv.name == name && mv.version == v) then
        create_model_version_loop name source run_id now conflictAt session rest
      else
        .ok (some model_version,
             { session with
                 model_versions := session.model_versions ++ [model_version] })

/-- `create_model_version(name, source, run_id)`: ONE managed-session scope
wraps the whole retry loop (the `with` statement encloses the `for`); when the
loop exhausts all `CREATE_MODEL_VERSION_RETRIES` attempts the scope exits
normally and the giving-up `MlflowException` (raised with no error code) names
the model and the attempt count.  `conflictAt` injects the concurrent-racer
integrity errors the optimistic retry exists for. -/
def create_model_version (store : Store) (name source run_id : String)
    (now : Nat) (conflictAt : Nat → Bool) :
    Except MlflowException SqlModelVersion × Store × Nat :=
  match withManagedSession store
      (fun session =>
        create_model_version_loop name source run_id now conflictAt session
          (List.range CREATE_MODEL_VERSION_RETRIES)) with
  | (.ok (some mv), s, k) => (.ok mv, s, k)
  | (.ok none, s, k) =>
      let n := CREATE_MODEL_VERSION_RETRIES
      (.error ⟨s!"Model Version creation error (name={name}). Giving up after {n} attempts.",
               none⟩, s, k)
  | (.error e, s, k) => (.error e, s, k)

/-- `update_model_version(model_version, stage, description)`: look up the row
by `(name, version)`; if `stage` is given canonicalize it first (the
canonicalization failure propagates before anything is assigned) and store the
canonical form; if `description` is given store it; save the updated row. -/
def update_model_version (store : Store) (name : String) (version : Nat)
    (stage : Option String) (description : Option String) :
    Except MlflowException Unit × Store × Nat :=
  withManagedSession store (fun session => do
    let sql_model_version ← _get_sql_model_version session name version
    let staged ←
      match stage with
      | some st => do
          let c ← get_canonical_stage st
          pure { sql_model_version with current_stage := c }
      | none => pure sql_model_version
    let updated : SqlModelVersion :=
      { staged with description := updatedDescription description staged.description }
    .ok ((),
         { session with
             model_versions := session.model_versions.map
               (fun mv => if mv.name == name && mv.version == version
                          then updated else mv) }))

/-- `delete_model_version(model_version)`: look up the row, then delete it. -/
def delete_model_version (store : Store) (name : String) (version : Nat) :
    Except MlflowException Unit × Store × Nat :=
  withManagedSession store (fun session => do
    let _ ← _get_sql_model_version session name version
    .ok ((),
         { session with
             model_versions := session.model_versions.filter
               (fun mv => !(mv.name == name && mv.version == version)) }))

/-- `get_model_version_details(model_version)`: the `(name, version)` lookup,
returned as a detached snapshot. -/
def get_model_version_details (store : Store) (name : String) (version : Nat) :
    Except MlflowException SqlModelVersion × Store × Nat :=
  withManagedSession store (fun session => do
    let sql_model_version ← _get_sql_model_version session name version
    .ok (sql_model_version, session))

/-- `get_model_version_download_uri(model_version)`: return the stored
`source` column verbatim. -/
def get_model_version_download_uri (store : Store) (name : String)
    (version : Nat) : Except MlflowException String × Store × Nat :=
  withManagedSession store (fun session => do
    let sql_model_version ← _get_sql_model_version session name version
    .ok (sql_model_version.source, session))

/-- `search_model_versions(filter_string)`: the filter is parsed before any
session is opened (`SearchUtils.parse_filter_for_model_registry` is not under
the reviewed sources; modelled from the spec, it maps the empty filter string
to no clauses and each `key = value` clause to one `FilterClause`, so the
operation is embedded over the parsed clause list).  Zero clauses mean no
predicate; one clause must use the `=` comparator and one of the recognized
keys `name` / `source_path` / `run_id`, anything else raising
`INVALID_PARAMETER_VALUE`; more than one clause raises
`INVALID_PARAMETER_VALUE`.  The query result is wrapped in a `PagedList`
whose token is `None`. -/
def search_model_versions (store : Store) (parsed_filter : List FilterClause) :
    Except MlflowException (PagedList SqlModelVersion) × Store × Nat :=
  let conditions : Except MlflowException (SqlModelVersion → Bool) :=
    match parsed_filter with
    | [] => .ok (fun _ => true)
    | [filter_dict] =>
        if filter_dict.comparator != "=" then
          .error ⟨"Model Registry search filter only supports equality(=) comparator.",
                  some .INVALID_PARAMETER_VALUE⟩
        else if filter_dict.key == "name" then
          .ok (fun mv => mv.name == filter_dict.value)
        else if filter_dict.key == "source_path" then
          .ok (fun mv => mv.source == filter_dict.value)
        else if filter_dict.key == "run_id" then
          .ok (fun mv => mv.run_id == filter_dict.value)
        else
          .error ⟨"Invalid filter string.", some .INVALID_PARAMETER_VALUE⟩
    | _ =>
        .error ⟨"Model Registry expects filter to be one of \"name = ...\" or \"source_path = ...\" or \"run_id = ...\".",
                some .INVALID_PARAMETER_VALUE⟩
  match conditions with
  | .error e => (.error e, store, 0)
  | .ok p =>
      withManagedSession store (fun session =>
        .ok (⟨session.model_versions.filter p, none⟩, session))

/-- Iterate non-concurrent `create_model_version` calls (no injected
conflicts), collecting the results in call order. -/
def createSeq (store : Store) (name source run_id : String) (now : Nat) :
    Nat → List (Except MlflowException SqlModelVersion) × Store
  | 0 => ([], store)
  | n + 1 =>
      let (rs, s) := createSeq store name source run_id now n
      let (r, s', _) := create_model_version s name source run_id now
        (fun _ => false)
      (rs ++ [r], s')

/-- A store is well formed when registered-model names are unique,
`(name, version)` keys of version rows are unique, and every version row's
name is owned by some registered model. -/
def Store.WF (s : Store) : Prop :=
  (s.registered_models.map (fun rm => rm.name)).Nodup ∧
  (s.model_versions.map (fun mv => (mv.name, mv.version))).Nodup ∧
  ∀ mv ∈ s.model_versions, ∃ rm ∈ s.registered_models, rm.name = mv.name

instance (s : Store) : Decidable s.WF := by
  unfold Store.WF; infer_instance

/-! ### Session-scope helper lemmas -/

theorem except_bind_ok {α β : Type} (a : α)
    (f : α → Except MlflowException β) :
    (Except.ok a : Except MlflowException α) >>= f = f a := rfl

theorem except_bind_error {α β : Type} (e : MlflowException)
    (f : α → Except MlflowException β) :
    (Except.error e : Except MlflowException α) >>= f = .error e := rfl

theorem withManagedSession_ok {α : Type} {store s' : Store} {a : α}
    {body : Store → Except MlflowException (α × Store)}
    (h : body store = .ok (a, s')) :
    withManagedSession store body = (.ok a, s', 1) := by
  simp [withManagedSession, h]

theorem withManagedSession_error {α : Type} {store : Store} {e : MlflowException}
    {body : Store → Except MlflowException (α × Store)}
    (h : body store = .error e) :
    withManagedSession store body = (.error e, store, 1) := by
  simp [withManagedSession, h]

theorem withManagedSession_scopes {α : Type} (store : Store)
    (body : Store → Except MlflowException (α × Store)) :
    (withManagedSession store body).2.2 = 1 := by
  unfold withManagedSession
  cases h : body store with
  | ok p => cases p; rfl
  | error e => rfl

/-! ### Claim theorems -/

/-- Claim C10: every read-only operation of the store — `list_registered_models`,
`get_registered_model_details`, `get_latest_versions`,
`get_model_version_details`, `get_model_version_download_uri`,
`search_model_versions` — leaves the backing store unchanged: the store
component of each result equals the input store, so no registered-model row
and no model-version row is created, modified, or deleted. -/
theorem read_only_ops_leave_store_unchanged :
    ∀ (s : Store) (name : String) (version : Nat)
      (stages : Option (List String)) (parsed_filter : List FilterClause),
      (list_registered_models s).2.1 = s ∧
      (get_registered_model_details s name).2.1 = s ∧
      (get_latest_versions s name stages).2.1 = s ∧
      (get_model_version_details s name version).2.1 = s ∧
      (get_model_version_download_uri s name version).2.1 = s ∧
      (search_model_versions s parsed_filter).2.1 = s := by
  intro s name version stages parsed_filter
  refine ⟨rfl, ?_, ?_, ?_, ?_, ?_⟩
  · unfold get_registered_model_details
    cases h : _get_registered_model s name with
    | ok rm => simp [withManagedSession, h, except_bind_ok, except_bind_error]
    | error e => simp [withManagedSession, h, except_bind_ok, except_bind_error]
  · unfold get_latest_versions
    cases h : _get_registered_model s name with
    | ok rm =>
        simp only [withManagedSession, h, except_bind_ok, except_bind_error]
        cases stages with
        | none =>
            cases hm : DEFAULT_STAGES_FOR_GET_LATEST_VERSIONS.mapM
                get_canonical_stage with
            | ok l => simp [hm, except_bind_ok, except_bind_error]
            | error e => simp [hm, except_bind_ok, except_bind_error]
        | some l =>
            by_cases hl : l.length == 0
            · simp only [hl, if_pos]
              cases hm : DEFAULT_STAGES_FOR_GET_LATEST_VERSIONS.mapM
                  get_canonical_stage with
              | ok l2 => simp [hm, except_bind_ok, except_bind_error]
              | error e => simp [hm, except_bind_ok, except_bind_error]
            · simp only [hl, if_neg, Bool.false_eq_true, not_false_eq_true]
              cases hm : l.mapM get_canonical_stage with
              | ok l2 => simp [hm, except_bind_ok, except_bind_error]
              | error e => simp [hm, except_bind_ok, except_bind_error]
    | error e => simp [withManagedSession, h, except_bind_ok, except_bind_error]
  · unfold get_model_version_details
    cases h : _get_sql_model_version s name version with
    | ok mv => simp [withManagedSession, h, except_bind_ok, except_bind_error]
    | error e => simp [withManagedSession, h, except_bind_ok, except_bind_error]
  · unfold get_model_version_download_uri
    cases h : _get_sql_model_version s name version with
    | ok mv => simp [withManagedSession, h, except_bind_ok, except_bind_error]
    | error e => simp [withManagedSession, h, except_bind_ok, except_bind_error]
  · unfold search_model_versions
    cases parsed_filter with
    | nil => simp [withManagedSession]
    | cons c rest =>
        cases rest with
        | nil =>
            by_cases hc : c.comparator != "="
            · simp [hc]
            · by_cases h1 : c.key == "name"
              · simp [hc, h1, withManagedSession]
              · by_cases h2 : c.key == "source_path"
                · simp [hc, h1, h2, withManagedSession]
                · by_cases h3 : c.key == "run_id"
                  · simp [hc, h1, h2, h3, withManagedSession]
                  · simp [hc, h1, h2, h3]
        | cons c2 rest2 => simp

/-- Claim C9: whenever `search_model_versions` succeeds, the returned paged
list's continuation token is absent (`none`): results are single-page. -/
theorem search_model_versions_single_page :
    ∀ (s : Store) (parsed_filter : List FilterClause)
      (r : PagedList SqlModelVersion) (s' : Store) (k : Nat),
      search_model_versions s parsed_filter = (.ok r, s', k) →
      r.token = none := by
  intro s pf r s' k h
  unfold search_model_versions at h
  rcases pf with _ | ⟨c, _ | ⟨c2, rest⟩⟩
  · simp only [withManagedSession, Prod.mk.injEq] at h
    obtain ⟨h1, -⟩ := h
    cases h1
    rfl
  · by_cases hc : c.comparator != "="
    · simp [hc] at h
    · by_cases h1 : c.key == "name"
      · simp only [hc, h1, if_true, if_false, Bool.false_eq_true,
          withManagedSession, Prod.mk.injEq] at h
        obtain ⟨h1, -⟩ := h
        cases h1
        rfl
      · by_cases h2 : c.key == "source_path"
        · simp only [hc, h1, h2, if_true, if_false, Bool.false_eq_true,
            withManagedSession, Prod.mk.injEq] at h
          obtain ⟨h1, -⟩ := h
          cases h1
          rfl
        · by_cases h3 : c.key == "run_id"
          · simp only [hc, h1, h2, h3, if_true, if_false, Bool.false_eq_true,
              withManagedSession, Prod.mk.injEq] at h
            obtain ⟨h1, -⟩ := h
            cases h1
            rfl
          · simp [hc, h1, h2, h3] at h
  · simp at h

/-- Witness for C9 at a concrete input: the empty filter on a one-row store
succeeds and the theorem yields an absent token. -/
theorem search_model_versions_single_page_witness :
    (⟨[{ name := "m", version := 1, creation_time := 0, last_updated_time := 0,
         source := "a", run_id := "r" }], none⟩ :
        PagedList SqlModelVersion).token = none :=
  search_model_versions_single_page
    ⟨[{ name := "m", creation_time := 0, last_updated_time := 0 }],
     [{ name := "m", version := 1, creation_time := 0, last_updated_time := 0,
        source := "a", run_id := "r" }]⟩
    [] _ _ _ rfl

/-- Claim C8: each of the two lookup helpers behind every by-name and
by-`(name, version)` operation fails with `RESOURCE_DOES_NOT_EXIST` when zero
rows match, returns the row when exactly one matches, and fails with the
distinct `INVALID_STATE` error when more than one row matches. -/
theorem lookup_helpers_trichotomy :
    ∀ (s : Store) (name : String) (version : Nat),
      ((s.registered_models.filter (fun rm => rm.name == name) = [] →
          ∃ msg, _get_registered_model s name =
            .error ⟨msg, some .RESOURCE_DOES_NOT_EXIST⟩) ∧
       (∀ rm, s.registered_models.filter (fun rm => rm.name == name) = [rm] →
          _get_registered_model s name = .ok rm) ∧
       ((s.registered_models.filter (fun rm => rm.name == name)).length > 1 →
          ∃ msg, _get_registered_model s name =
            .error ⟨msg, some .INVALID_STATE⟩)) ∧
      ((s.model_versions.filter
            (fun mv => mv.name == name && mv.version == version) = [] →
          ∃ msg, _get_sql_model_version s name version =
            .error ⟨msg, some .RESOURCE_DOES_NOT_EXIST⟩) ∧
       (∀ v, s.model_versions.filter
            (fun mv => mv.name == name && mv.version == version) = [v] →
          _get_sql_model_version s name version = .ok v) ∧
       ((s.model_versions.filter
            (fun mv => mv.name == name && mv.version == version)).length > 1 →
          ∃ msg, _get_sql_model_version s name version =
            .error ⟨msg, some .INVALID_STATE⟩)) := by
  intro s name version
  constructor
  · refine ⟨?_, ?_, ?_⟩
    · intro hf
      apply Exists.intro
      unfold _get_registered_model
      rw [hf]
    · intro rm hf
      simp [_get_registered_model, hf]
    · intro hf
      unfold _get_registered_model
      rcases he : s.registered_models.filter (fun rm => rm.name == name) with
        _ | ⟨a, _ | ⟨b, t⟩⟩
      · rw [he] at hf; simp at hf
      · rw [he] at hf; simp at hf
      · rw [he]
        exact ⟨_, rfl⟩
  · refine ⟨?_, ?_, ?_⟩
    · intro hf
      apply Exists.intro
      unfold _get_sql_model_version
      rw [hf]
    · intro v hf
      simp [_get_sql_model_version, hf]
    · intro hf
      unfold _get_sql_model_version
      rcases he : s.model_versions.filter
          (fun mv => mv.name == name && mv.version == version) with
        _ | ⟨a, _ | ⟨b, t⟩⟩
      · rw [he] at hf; simp at hf
      · rw [he] at hf; simp at hf
      · rw [he]
        exact ⟨_, rfl⟩

/-- A concrete store for witnesses: model "m" with one version, plus duplicate
"d" rows exercising the defensive more-than-one-match branches. -/
def dupStore : Store :=
  ⟨[⟨"m", 0, 0, none⟩, ⟨"d", 0, 0, none⟩, ⟨"d", 1, 1, none⟩],
   [⟨"m", 1, 0, 0, "a", "r", "None", none⟩,
    ⟨"d", 7, 0, 0, "b", "r2", "None", none⟩,
    ⟨"d", 7, 2, 2, "c", "r3", "None", none⟩]⟩

/-- Witness for C8 at concrete inputs: an absent name, a unique name, and a
duplicated name (and likewise for version keys) hit the three branches. -/
theorem lookup_helpers_trichotomy_witness :
    (∃ msg, _get_registered_model dupStore "q" =
        .error ⟨msg, some .RESOURCE_DOES_NOT_EXIST⟩) ∧
    _get_registered_model dupStore "m" = .ok ⟨"m", 0, 0, none⟩ ∧
    (∃ msg, _get_registered_model dupStore "d" =
        .error ⟨msg, some .INVALID_STATE⟩) ∧
    (∃ msg, _get_sql_model_version dupStore "q" 1 =
        .error ⟨msg, some .RESOURCE_DOES_NOT_EXIST⟩) ∧
    _get_sql_model_version dupStore "m" 1 =
        .ok ⟨"m", 1, 0, 0, "a", "r", "None", none⟩ ∧
    (∃ msg, _get_sql_model_version dupStore "d" 7 =
        .error ⟨msg, some .INVALID_STATE⟩) :=
  ⟨(lookup_helpers_trichotomy dupStore "q" 1).1.1 (by decide),
   (lookup_helpers_trichotomy dupStore "m" 1).1.2.1 _ (by decide),
   (lookup_helpers_trichotomy dupStore "d" 1).1.2.2 (by decide),
   (lookup_helpers_trichotomy dupStore "q" 1).2.1 (by decide),
   (lookup_helpers_trichotomy dupStore "m" 1).2.2.1 _ (by decide),
   (lookup_helpers_trichotomy dupStore "d" 7).2.2.2 (by decide)⟩

/-- The row `update_model_version` persists when given canonical stage `c` and
an optional description: the looked-up row with its stage and description
updated. -/
def stagedRow (mv0 : SqlModelVersion) (c : String) (desc : Option String) :
    SqlModelVersion :=
  { mv0 with current_stage := c,
             description := updatedDescription desc mv0.description }

/-- Claim C7: `update_model_version` canonicalizes a given stage before
storing it; unrecognized stage text makes the whole update fail with the
canonicalizer's `INVALID_PARAMETER_VALUE` error and leaves the store — hence
the stored stage and the rest of the version row — unchanged; a recognized
stage is stored in canonical form. -/
theorem update_model_version_canonicalizes_stage :
    (∀ (e : MlflowException) (stg : String),
       get_canonical_stage stg = .error e →
       e.error_code = some .INVALID_PARAMETER_VALUE) ∧
    (∀ (s : Store) (name : String) (version : Nat) (stg : String)
       (desc : Option String) (mv0 : SqlModelVersion) (e : MlflowException),
       s.model_versions.filter
           (fun mv => mv.name == name && mv.version == version) = [mv0] →
       get_canonical_stage stg = .error e →
       update_model_version s name version (some stg) desc =
         (.error e, s, 1)) ∧
    (∀ (s : Store) (name : String) (version : Nat) (stg c : String)
       (desc : Option String) (mv0 : SqlModelVersion),
       s.model_versions.filter
           (fun mv => mv.name == name && mv.version == version) = [mv0] →
       get_canonical_stage stg = .ok c →
       ∃ s', update_model_version s name version (some stg) desc =
           (.ok (), s', 1) ∧
         ∀ mv ∈ s'.model_versions,
           mv.name = name → mv.version = version → mv.current_stage = c) := by
  refine ⟨?_, ?_, ?_⟩
  · intro e stg h
    unfold get_canonical_stage at h
    cases hfind : ALL_STAGES.find? (fun c => lowerString c == lowerString stg) with
    | some c => rw [hfind] at h; cases h
    | none => rw [hfind] at h; cases h; rfl
  · intro s name version stg desc mv0 e hf hc
    have hl : _get_sql_model_version s name version = .ok mv0 := by
      simp [_get_sql_model_version, hf]
    unfold update_model_version
    exact withManagedSession_error
      (by simp [hl, hc, except_bind_ok, except_bind_error])
  · intro s name version stg c desc mv0 hf hc
    have hl : _get_sql_model_version s name version = .ok mv0 := by
      simp [_get_sql_model_version, hf]
    refine ⟨({ s with model_versions := s.model_versions.map (fun mv =>
                  if mv.name == name && mv.version == version
                  then stagedRow mv0 c desc else mv) } : Store),
            ?_, ?_⟩
    · unfold update_model_version withManagedSession
      simp [hl, hc, except_bind_ok, except_bind_error, stagedRow]
    · intro mv hmv hn hv
      simp only [List.mem_map] at hmv
      obtain ⟨x, -, hx⟩ := hmv
      by_cases hcond : x.name == name && x.version == version
      · rw [if_pos hcond] at hx
        rw [← hx]
        simp [stagedRow]
      · rw [if_neg hcond] at hx
        subst hx
        simp [hn, hv] at hcond

/-- Witness for C7 at concrete inputs: on `dupStore`, updating version
`("m", 1)` with the unrecognized stage "bogus" fails with the
`INVALID_PARAMETER_VALUE` canonicalization error and leaves the store
untouched, while the recognized alias "staging" is stored canonically. -/
theorem update_model_version_canonicalizes_stage_witness :
    update_model_version dupStore "m" 1 (some "bogus") none =
      (.error ⟨"Invalid Model Version stage bogus.",
               some .INVALID_PARAMETER_VALUE⟩, dupStore, 1) ∧
    (∃ s', update_model_version dupStore "m" 1 (some "staging") none =
        (.ok (), s', 1) ∧
      ∀ mv ∈ s'.model_versions,
        mv.name = "m" → mv.version = 1 → mv.current_stage = "Staging") :=
  ⟨update_model_version_canonicalizes_stage.2.1 dupStore "m" 1 "bogus" none
     ⟨"m", 1, 0, 0, "a", "r", "None", none⟩ _ (by decide) (by decide),
   update_model_version_canonicalizes_stage.2.2 dupStore "m" 1 "staging"
     "Staging" none ⟨"m", 1, 0, 0, "a", "r", "None", none⟩
     (by decide) (by decide)⟩

/-! ### Reduction lemmas for `search_model_versions` -/

theorem search_nil (s : Store) :
    search_model_versions s [] = (.ok ⟨s.model_versions, none⟩, s, 1) := by
  simp [search_model_versions, withManagedSession]

theorem search_bad_comparator (s : Store) (c : FilterClause)
    (h : c.comparator ≠ "=") :
    search_model_versions s [c] =
      (.error ⟨"Model Registry search filter only supports equality(=) comparator.",
               some .INVALID_PARAMETER_VALUE⟩, s, 0) := by
  simp [search_model_versions, h]

theorem search_key_name (s : Store) (c : FilterClause)
    (hc : c.comparator = "=") (hk : c.key = "name") :
    search_model_versions s [c] =
      (.ok ⟨s.model_versions.filter (fun mv => mv.name == c.value), none⟩,
       s, 1) := by
  simp [search_model_versions, hc, hk, withManagedSession]

theorem search_key_source_path (s : Store) (c : FilterClause)
    (hc : c.comparator = "=") (hk : c.key = "source_path") :
    search_model_versions s [c] =
      (.ok ⟨s.model_versions.filter (fun mv => mv.source == c.value), none⟩,
       s, 1) := by
  simp [search_model_versions, hc, hk, withManagedSession]

theorem search_key_run_id (s : Store) (c : FilterClause)
    (hc : c.comparator = "=") (hk : c.key = "run_id") :
    search_model_versions s [c] =
      (.ok ⟨s.model_versions.filter (fun mv => mv.run_id == c.value), none⟩,
       s, 1) := by
  simp [search_model_versions, hc, hk, withManagedSession]

theorem search_bad_key (s : Store) (c : FilterClause)
    (hc : c.comparator = "=") (h1 : c.key ≠ "name")
    (h2 : c.key ≠ "source_path") (h3 : c.key ≠ "run_id") :
    search_model_versions s [c] =
      (.error ⟨"Invalid filter string.", some .INVALID_PARAMETER_VALUE⟩,
       s, 0) := by
  simp [search_model_versions, hc, h1, h2, h3]

theorem search_multi_clause (s : Store) (c c2 : FilterClause)
    (rest : List FilterClause) :
    search_model_versions s (c :: c2 :: rest) =
      (.error ⟨"Model Registry expects filter to be one of \"name = ...\" or \"source_path = ...\" or \"run_id = ...\".",
               some .INVALID_PARAMETER_VALUE⟩, s, 0) := by
  simp [search_model_versions]

/-- Claim C6: `search_model_versions` with an empty parsed filter matches all
versions; with exactly one equality clause on a recognized key (`name`,
`source_path`, `run_id`) it returns exactly the versions whose corresponding
field equals the value; and it fails — always with
`INVALID_PARAMETER_VALUE` — if and only if the filter has a single clause
with a comparator other than `=` or an unrecognized key, or has more than one
clause. -/
theorem search_model_versions_filter_semantics :
    ∀ (s : Store) (pf : List FilterClause),
      (pf = [] →
        search_model_versions s pf = (.ok ⟨s.model_versions, none⟩, s, 1)) ∧
      (∀ c, pf = [c] → c.comparator = "=" →
        (c.key = "name" →
          search_model_versions s pf =
            (.ok ⟨s.model_versions.filter (fun mv => mv.name == c.value),
                  none⟩, s, 1)) ∧
        (c.key = "source_path" →
          search_model_versions s pf =
            (.ok ⟨s.model_versions.filter (fun mv => mv.source == c.value),
                  none⟩, s, 1)) ∧
        (c.key = "run_id" →
          search_model_versions s pf =
            (.ok ⟨s.model_versions.filter (fun mv => mv.run_id == c.value),
                  none⟩, s, 1))) ∧
      (∀ e, (search_model_versions s pf).1 = .error e →
        e.error_code = some .INVALID_PARAMETER_VALUE) ∧
      ((∃ e, (search_model_versions s pf).1 = .error e) ↔
        (∃ c, pf = [c] ∧ (c.comparator ≠ "=" ∨
           (c.key ≠ "name" ∧ c.key ≠ "source_path" ∧ c.key ≠ "run_id"))) ∨
        2 ≤ pf.length) := by
  intro s pf
  rcases pf with _ | ⟨c, _ | ⟨c2, rest⟩⟩
  · refine ⟨fun _ => search_nil s, ?_, ?_, ?_⟩
    · intro c h; cases h
    · intro e he; rw [search_nil s] at he; cases he
    · constructor
      · rintro ⟨e, he⟩; rw [search_nil s] at he; cases he
      · rintro (⟨c, h, -⟩ | h) <;> simp at h
  · refine ⟨?_, ?_, ?_, ?_⟩
    · intro h; cases h
    · rintro c' ⟨rfl⟩ hc
      exact ⟨fun hk => search_key_name s c hc hk,
             fun hk => search_key_source_path s c hc hk,
             fun hk => search_key_run_id s c hc hk⟩
    · intro e he
      by_cases hc : c.comparator = "="
      · by_cases h1 : c.key = "name"
        · rw [search_key_name s c hc h1] at he; cases he
        · by_cases h2 : c.key = "source_path"
          · rw [search_key_source_path s c hc h2] at he; cases he
          · by_cases h3 : c.key = "run_id"
            · rw [search_key_run_id s c hc h3] at he; cases he
            · rw [search_bad_key s c hc h1 h2 h3] at he
              cases he; rfl
      · rw [search_bad_comparator s c hc] at he
        cases he; rfl
    · constructor
      · rintro ⟨e, he⟩
        by_cases hc : c.comparator = "="
        · by_cases h1 : c.key = "name"
          · rw [search_key_name s c hc h1] at he; cases he
          · by_cases h2 : c.key = "source_path"
            · rw [search_key_source_path s c hc h2] at he; cases he
            · by_cases h3 : c.key = "run_id"
              · rw [search_key_run_id s c hc h3] at he; cases he
              · exact Or.inl ⟨c, rfl, Or.inr ⟨h1, h2, h3⟩⟩
        · exact Or.inl ⟨c, rfl, Or.inl hc⟩
      · rintro (⟨c', hc', hbad⟩ | h)
        · obtain ⟨rfl⟩ := hc'
          rcases hbad with hc | ⟨h1, h2, h3⟩
          · exact ⟨_, by rw [search_bad_comparator s c hc]⟩
          · by_cases hc : c.comparator = "="
            · exact ⟨_, by rw [search_bad_key s c hc h1 h2 h3]⟩
            · exact ⟨_, by rw [search_bad_comparator s c hc]⟩
        · simp at h
  · refine ⟨?_, ?_, ?_, ?_⟩
    · intro h; cases h
    · intro c' h; cases h
    · intro e he
      rw [search_multi_clause s c c2 rest] at he
      cases he; rfl
    · constructor
      · intro _; right; simp
      · intro _; exact ⟨_, by rw [search_multi_clause s c c2 rest]⟩

/-- Witness for C6 at concrete inputs: on `dupStore`, the empty filter
matches everything, the single equality clause on `name` filters by name, and
a two-clause filter fails. -/
theorem search_model_versions_filter_semantics_witness :
    search_model_versions dupStore [] =
      (.ok ⟨dupStore.model_versions, none⟩, dupStore, 1) ∧
    search_model_versions dupStore [⟨"name", "=", "m"⟩] =
      (.ok ⟨dupStore.model_versions.filter (fun mv => mv.name == "m"), none⟩,
       dupStore, 1) ∧
    (∃ e, (search_model_versions dupStore
        [⟨"name", "=", "m"⟩, ⟨"run_id", "=", "r"⟩]).1 = .error e) :=
  ⟨(search_model_versions_filter_semantics dupStore []).1 rfl,
   ((search_model_versions_filter_semantics dupStore
       [⟨"name", "=", "m"⟩]).2.1 ⟨"name", "=", "m"⟩ rfl rfl).1 rfl,
   (search_model_versions_filter_semantics dupStore
       [⟨"name", "=", "m"⟩, ⟨"run_id", "=", "r"⟩]).2.2.2.2
     (Or.inr (by decide))⟩

/-! ### Version-number assignment and the retry loop -/

theorem foldl_max_le (l : List Nat) (a : Nat) :
    a ≤ l.foldl max a ∧ ∀ x ∈ l, x ≤ l.foldl max a := by
  induction l generalizing a with
  | nil => simp
  | cons b t ih =>
      refine ⟨le_trans (le_max_left a b) (ih (max a b)).1, ?_⟩
      intro x hx
      rcases List.mem_cons.mp hx with rfl | hx
      · exact le_trans (le_max_right a x) (ih (max a x)).1
      · exact (ih (max a b)).2 x hx

theorem lookup_ok_filter {s : Store} {name : String} {rm : SqlRegisteredModel}
    (h : _get_registered_model s name = .ok rm) :
    s.registered_models.filter (fun x => x.name == name) = [rm] := by
  unfold _get_registered_model at h
  rcases he : s.registered_models.filter (fun x => x.name == name) with
    _ | ⟨a, _ | ⟨b, t⟩⟩ <;> rw [he] at h
  · cases h
  · cases h; exact he
  · cases h

theorem lookup_ok_name {s : Store} {name : String} {rm : SqlRegisteredModel}
    (h : _get_registered_model s name = .ok rm) : rm.name = name := by
  have hf := lookup_ok_filter h
  have hmem : rm ∈ s.registered_models.filter (fun x => x.name == name) := by
    rw [hf]; exact List.mem_singleton.mpr rfl
  have := (List.mem_filter.mp hmem).2
  simpa using this

theorem lookup_same_rms {s t : Store} (name : String)
    (h : t.registered_models = s.registered_models) :
    _get_registered_model t name = _get_registered_model s name := by
  unfold _get_registered_model
  rw [h]

theorem mem_version_lt_next (s : Store) (rm : SqlRegisteredModel) :
    ∀ mv ∈ modelVersionsOf s rm.name, mv.version < next_version s rm := by
  intro mv hmv
  have hne : (modelVersionsOf s rm.name).isEmpty = false := by
    cases h : modelVersionsOf s rm.name with
    | nil => rw [h] at hmv; cases hmv
    | cons a t => simp
  have hnv : next_version s rm =
      ((modelVersionsOf s rm.name).map (fun mv => mv.version)).foldl max 0
        + 1 := by
    unfold next_version
    simp [hne]
  have hmem : mv.version ∈
      (modelVersionsOf s rm.name).map (fun mv => mv.version) :=
    List.mem_map_of_mem _ hmv
  have hle := (foldl_max_le
    ((modelVersionsOf s rm.name).map (fun mv => mv.version)) 0).2 _ hmem
  omega

theorem flush_conflict_free {s : Store} {name : String}
    {rm : SqlRegisteredModel} (h : _get_registered_model s name = .ok rm) :
    s.model_versions.any
      (fun mv => mv.name == name && mv.version == next_version s rm) = false := by
  have hn := lookup_ok_name h
  rw [List.any_eq_false]
  intro mv hmv
  simp only [Bool.and_eq_true, beq_iff_eq, not_and]
  intro h1 h2
  have hmem : mv ∈ modelVersionsOf s rm.name :=
    List.mem_filter.mpr ⟨hmv, by simp [h1, hn]⟩
  have := mem_version_lt_next s rm mv hmem
  omega

/-- The row a successful `create_model_version` attempt inserts, with version
number `k`. -/
def mkRow (name source run_id : String) (now k : Nat) : SqlModelVersion :=
  { name := name, version := k, creation_time := now, last_updated_time := now,
    source := source, run_id := run_id }

theorem loop_success {s : Store} {name : String} {rm : SqlRegisteredModel}
    (source run_id : String) (now : Nat) (conflictAt : Nat → Bool)
    (attempt : Nat) (rest : List Nat)
    (hrm : _get_registered_model s name = .ok rm)
    (hnoc : conflictAt attempt = false) :
    create_model_version_loop name source run_id now conflictAt s
        (attempt :: rest) =
      .ok (some (mkRow name source run_id now (next_version s rm)),
           { s with model_versions := s.model_versions ++
               [mkRow name source run_id now (next_version s rm)] }) := by
  simp only [create_model_version_loop, hrm, except_bind_ok, hnoc,
             Bool.false_or, flush_conflict_free hrm, mkRow]
  simp

theorem loop_conflict {s : Store} {name : String} {rm : SqlRegisteredModel}
    (source run_id : String) (now : Nat) (conflictAt : Nat → Bool)
    (attempt : Nat) (rest : List Nat)
    (hrm : _get_registered_model s name = .ok rm)
    (hc : conflictAt attempt = true) :
    create_model_version_loop name source run_id now conflictAt s
        (attempt :: rest) =
      create_model_version_loop name source run_id now conflictAt s rest := by
  simp [create_model_version_loop, hrm, except_bind_ok, hc]

theorem create_model_version_give_up {s : Store}
    {name source run_id : String} {now : Nat} {conflictAt : Nat → Bool}
    {rm : SqlRegisteredModel} (hrm : _get_registered_model s name = .ok rm)
    (hc : ∀ i, i < CREATE_MODEL_VERSION_RETRIES → conflictAt i = true) :
    create_model_version s name source run_id now conflictAt =
      (.error ⟨s!"Model Version creation error (name={name}). Giving up after {CREATE_MODEL_VERSION_RETRIES} attempts.",
               none⟩, s, 1) := by
  have hl : create_model_version_loop name source run_id now conflictAt s
      (List.range CREATE_MODEL_VERSION_RETRIES) = .ok (none, s) := by
    have h0 : List.range CREATE_MODEL_VERSION_RETRIES = [0, 1, 2] := by decide
    rw [h0, loop_conflict source run_id now conflictAt 0 [1, 2] hrm
          (hc 0 (by decide)),
        loop_conflict source run_id now conflictAt 1 [2] hrm
          (hc 1 (by decide)),
        loop_conflict source run_id now conflictAt 2 [] hrm
          (hc 2 (by decide))]
    rfl
  unfold create_model_version
  rw [withManagedSession_ok hl]

theorem create_model_version_step {s : Store} {name : String}
    {rm : SqlRegisteredModel} (source run_id : String) (now : Nat)
    (hrm : _get_registered_model s name = .ok rm) :
    create_model_version s name source run_id now (fun _ => false) =
      (.ok (mkRow name source run_id now (next_version s rm)),
       { s with model_versions := s.model_versions ++
           [mkRow name source run_id now (next_version s rm)] }, 1) := by
  have hl := loop_success source run_id now (fun _ => false) 0 [1, 2] hrm rfl
  unfold create_model_version
  have h0 : List.range CREATE_MODEL_VERSION_RETRIES = 0 :: [1, 2] := by decide
  rw [h0, withManagedSession_ok hl]

theorem create_model_version_first_success {s : Store}
    {name source run_id : String} {now : Nat} {conflictAt : Nat → Bool}
    {rm : SqlRegisteredModel} (hrm : _get_registered_model s name = .ok rm)
    (hex : ∃ i, i < CREATE_MODEL_VERSION_RETRIES ∧ conflictAt i = false) :
    ∃ mv s', create_model_version s name source run_id now conflictAt =
      (.ok mv, s', 1) := by
  have h0 : List.range CREATE_MODEL_VERSION_RETRIES = 0 :: 1 :: [2] := by decide
  cases hc0 : conflictAt 0 with
  | false =>
      exact ⟨_, _, by
        unfold create_model_version
        rw [h0, withManagedSession_ok
          (loop_success source run_id now conflictAt 0 (1 :: [2]) hrm hc0)]⟩
  | true =>
      cases hc1 : conflictAt 1 with
      | false =>
          exact ⟨_, _, by
            unfold create_model_version
            rw [h0, withManagedSession_ok
              (show create_model_version_loop name source run_id now conflictAt
                  s (0 :: 1 :: [2]) =
                  .ok (some (mkRow name source run_id now (next_version s rm)),
                       { s with model_versions := s.model_versions ++
                           [mkRow name source run_id now (next_version s rm)] })
                from by
                rw [loop_conflict source run_id now conflictAt 0 (1 :: [2])
                      hrm hc0,
                    loop_success source run_id now conflictAt 1 [2] hrm hc1])]⟩
      | true =>
          cases hc2 : conflictAt 2 with
          | false =>
              exact ⟨_, _, by
                unfold create_model_version
                rw [h0, withManagedSession_ok
                  (show create_model_version_loop name source run_id now
                      conflictAt s (0 :: 1 :: [2]) =
                      .ok (some (mkRow name source run_id now
                             (next_version s rm)),
                           { s with model_versions := s.model_versions ++
                               [mkRow name source run_id now
                                  (next_version s rm)] })
                    from by
                    rw [loop_conflict source run_id now conflictAt 0 (1 :: [2])
                          hrm hc0,
                        loop_conflict source run_id now conflictAt 1 [2]
                          hrm hc1,
                        loop_success source run_id now conflictAt 2 [] hrm
                          hc2])]⟩
          | true =>
              obtain ⟨i, hi, hfalse⟩ := hex
              have hi3 : i < 3 := hi
              interval_cases i
              · rw [hc0] at hfalse; cases hfalse
              · rw [hc1] at hfalse; cases hfalse
              · rw [hc2] at hfalse; cases hfalse

/-- Claim C3: on insertion conflicts `create_model_version` retries the whole
read-compute-insert sequence up to the fixed bound
`CREATE_MODEL_VERSION_RETRIES = 3`: it succeeds as soon as one of the first
three attempts is conflict-free, and when all three attempts conflict it
fails with the terminal giving-up error whose message names the model and the
attempt count. -/
theorem create_model_version_retry_bound :
    CREATE_MODEL_VERSION_RETRIES = 3 ∧
    ∀ (s : Store) (name source run_id : String) (now : Nat)
      (conflictAt : Nat → Bool) (rm : SqlRegisteredModel),
      _get_registered_model s name = .ok rm →
      ((∀ i, i < CREATE_MODEL_VERSION_RETRIES → conflictAt i = true) →
        create_model_version s name source run_id now conflictAt =
          (.error ⟨s!"Model Version creation error (name={name}). Giving up after {CREATE_MODEL_VERSION_RETRIES} attempts.",
                   none⟩, s, 1)) ∧
      ((∃ i, i < CREATE_MODEL_VERSION_RETRIES ∧ conflictAt i = false) →
        ∃ mv s', create_model_version s name source run_id now conflictAt =
          (.ok mv, s', 1)) := by
  refine ⟨rfl, ?_⟩
  intro s name source run_id now conflictAt rm hrm
  exact ⟨create_model_version_give_up hrm,
         create_model_version_first_success hrm⟩

/-- Witness for C3 at concrete inputs: on a one-model store, an always-
conflicting oracle exhausts the three attempts and yields the exact giving-up
message, while an oracle that conflicts only on the first two attempts
succeeds. -/
theorem create_model_version_retry_bound_witness :
    create_model_version ⟨[⟨"m", 0, 0, none⟩], []⟩ "m" "s" "r" 0
        (fun _ => true) =
      (.error ⟨"Model Version creation error (name=m). Giving up after 3 attempts.",
               none⟩, ⟨[⟨"m", 0, 0, none⟩], []⟩, 1) ∧
    ∃ mv s', create_model_version ⟨[⟨"m", 0, 0, none⟩], []⟩ "m" "s" "r" 0
        (fun i => decide (i < 2)) = (.ok mv, s', 1) :=
  ⟨(create_model_version_retry_bound.2 ⟨[⟨"m", 0, 0, none⟩], []⟩ "m" "s" "r" 0
      (fun _ => true) ⟨"m", 0, 0, none⟩ (by decide)).1 (fun i _ => rfl),
   (create_model_version_retry_bound.2 ⟨[⟨"m", 0, 0, none⟩], []⟩ "m" "s" "r" 0
      (fun i => decide (i < 2)) ⟨"m", 0, 0, none⟩ (by decide)).2
     ⟨2, by decide, by decide⟩⟩

/-- Claim C2 (amended): `create_model_version` opens exactly ONE managed
session scope around its whole retry loop — not one scope per attempt — for
every input, including runs where every attempt conflicts; every other
Registry Store operation opens at most one scope (exactly one whenever it
reaches the database; the fail-fast validation paths of
`create_registered_model` and `search_model_versions` open none). -/
theorem ops_single_scope :
    ∀ (s : Store) (name source run_id : String) (version now : Nat)
      (conflictAt : Nat → Bool) (stages : Option (List String))
      (nn desc stg : Option String) (pf : List FilterClause),
      (create_model_version s name source run_id now conflictAt).2.2 = 1 ∧
      (create_registered_model s name now).2.2 ≤ 1 ∧
      (update_registered_model s name nn desc).2.2 = 1 ∧
      (delete_registered_model s name).2.2 = 1 ∧
      (list_registered_models s).2.2 = 1 ∧
      (get_registered_model_details s name).2.2 = 1 ∧
      (get_latest_versions s name stages).2.2 = 1 ∧
      (update_model_version s name version stg desc).2.2 = 1 ∧
      (delete_model_version s name version).2.2 = 1 ∧
      (get_model_version_details s name version).2.2 = 1 ∧
      (get_model_version_download_uri s name version).2.2 = 1 ∧
      (search_model_versions s pf).2.2 ≤ 1 := by
  intro s name source run_id version now conflictAt stages nn desc stg pf
  refine ⟨?_, ?_, withManagedSession_scopes s _,
          withManagedSession_scopes s _, withManagedSession_scopes s _,
          withManagedSession_scopes s _, withManagedSession_scopes s _,
          withManagedSession_scopes s _, withManagedSession_scopes s _,
          withManagedSession_scopes s _, withManagedSession_scopes s _, ?_⟩
  · unfold create_model_version
    have hk := withManagedSession_scopes s (fun session =>
      create_model_version_loop name source run_id now conflictAt session
        (List.range CREATE_MODEL_VERSION_RETRIES))
    rcases hw : withManagedSession s (fun session =>
        create_model_version_loop name source run_id now conflictAt session
          (List.range CREATE_MODEL_VERSION_RETRIES)) with ⟨r, s', k⟩
    rw [hw] at hk
    cases r with
    | error e => simpa using hk
    | ok v =>
        cases v with
        | none => simpa using hk
        | some mv => simpa using hk
  · by_cases h : name == ""
    · simp [create_registered_model, h]
    · simp [create_registered_model, h, withManagedSession_scopes]
  · rcases pf with _ | ⟨c, _ | ⟨c2, rest⟩⟩
    · rw [search_nil]
    · by_cases hc : c.comparator = "="
      · by_cases h1 : c.key = "name"
        · rw [search_key_name s c hc h1]
        · by_cases h2 : c.key = "source_path"
          · rw [search_key_source_path s c hc h2]
          · by_cases h3 : c.key = "run_id"
            · rw [search_key_run_id s c hc h3]
            · rw [search_bad_key s c hc h1 h2 h3]; exact Nat.zero_le 1
      · rw [search_bad_comparator s c hc]; exact Nat.zero_le 1
    · rw [search_multi_clause s c c2 rest]; exact Nat.zero_le 1

/-- Counterexample for C2 as stated: with every attempt conflicting,
`create_model_version` makes all `CREATE_MODEL_VERSION_RETRIES = 3` attempts
(the giving-up message records the count) yet opens a single session scope —
the `with` statement encloses the `for` loop — so it does not open one scope
per attempt. -/
theorem create_model_version_one_scope_counterexample :
    (create_model_version ⟨[⟨"m", 0, 0, none⟩], []⟩ "m" "s" "r" 0
        (fun _ => true)).1 =
      .error ⟨"Model Version creation error (name=m). Giving up after 3 attempts.",
              none⟩ ∧
    (create_model_version ⟨[⟨"m", 0, 0, none⟩], []⟩ "m" "s" "r" 0
        (fun _ => true)).2.2 = 1 ∧
    (create_model_version ⟨[⟨"m", 0, 0, none⟩], []⟩ "m" "s" "r" 0
        (fun _ => true)).2.2 ≠ CREATE_MODEL_VERSION_RETRIES := by
  refine ⟨?_, ?_, ?_⟩ <;> decide

/-! ### The 1, 2, 3, … sequence of assigned version numbers -/

theorem range'_foldl_max (n : Nat) : (List.range' 1 n).foldl max 0 = n := by
  induction n with
  | zero => rfl
  | succ k ih =>
      rw [List.range'_1_concat 1 k, List.foldl_append, ih]
      simp only [List.foldl_cons, List.foldl_nil]
      omega

theorem next_version_of_range {s : Store} {name source run_id : String}
    {now : Nat} {rm : SqlRegisteredModel} (n : Nat) (hn : rm.name = name)
    (hmv : modelVersionsOf s name =
      (List.range' 1 n).map (mkRow name source run_id now)) :
    next_version s rm = n + 1 := by
  have hver : ((List.range' 1 n).map (mkRow name source run_id now)).map
      (fun mv => mv.version) = List.range' 1 n := by
    have hcomp : (fun mv : SqlModelVersion => mv.version) ∘
        mkRow name source run_id now = id := by
      funext k; rfl
    rw [List.map_map, hcomp, List.map_id]
  unfold next_version
  rw [hn, hmv]
  cases n with
  | zero => rfl
  | succ k =>
      have hne : ((List.range' 1 (k + 1)).map
          (mkRow name source run_id now)).isEmpty = false := by
        simp [List.range'_succ]
      simp only [hne, Bool.false_eq_true, if_false, hver]
      rw [range'_foldl_max]

theorem createSeq_succ (store : Store) (name source run_id : String)
    (now k : Nat) :
    createSeq store name source run_id now (k + 1) =
      ((createSeq store name source run_id now k).1 ++
         [(create_model_version (createSeq store name source run_id now k).2
             name source run_id now (fun _ => false)).1],
       (create_model_version (createSeq store name source run_id now k).2
          name source run_id now (fun _ => false)).2.1) := rfl

theorem createSeq_spec (s : Store) (name source run_id : String) (now : Nat)
    (rm : SqlRegisteredModel) (hrm : _get_registered_model s name = .ok rm)
    (hempty : modelVersionsOf s name = []) :
    ∀ n,
      (createSeq s name source run_id now n).2.registered_models =
        s.registered_models ∧
      modelVersionsOf (createSeq s name source run_id now n).2 name =
        (List.range' 1 n).map (mkRow name source run_id now) ∧
      (createSeq s name source run_id now n).1 =
        (List.range' 1 n).map
          (fun k => .ok (mkRow name source run_id now k)) := by
  intro n
  induction n with
  | zero => exact ⟨rfl, by simpa using hempty, rfl⟩
  | succ k ih =>
      obtain ⟨ihr, ihm, ihl⟩ := ih
      have hrm' : _get_registered_model
          (createSeq s name source run_id now k).2 name = .ok rm := by
        rw [lookup_same_rms name ihr]
        exact hrm
      have hnv : next_version (createSeq s name source run_id now k).2 rm =
          k + 1 :=
        next_version_of_range k (lookup_ok_name hrm) ihm
      have hstep := create_model_version_step source run_id now hrm'
      have hconcat : List.range' 1 (k + 1) = List.range' 1 k ++ [k + 1] := by
        simpa [Nat.add_comm] using List.range'_1_concat 1 k
      rw [createSeq_succ, hstep]
      refine ⟨ihr, ?_, ?_⟩
      · unfold modelVersionsOf at ihm ⊢
        simp only [List.filter_append, ihm, hnv, hconcat, List.map_append]
        simp [mkRow]
      · simp only [ihl, hnv, hconcat, List.map_append]
        rfl

/-- Claim C1: `create_model_version` on an existing registered model assigns
the new version number `max(existing versions) + 1`, or `1` when the model
owns no versions; consequently a sequence of non-concurrent
`create_model_version` calls on a model created empty returns the versions
`1, 2, 3, …` in call order. -/
theorem create_model_version_version_numbering :
    (∀ (s : Store) (name source run_id : String) (now : Nat)
       (rm : SqlRegisteredModel),
       _get_registered_model s name = .ok rm →
       ∃ mv s', create_model_version s name source run_id now
           (fun _ => false) = (.ok mv, s', 1) ∧
         mv.version = (if modelVersionsOf s name = [] then 1
           else ((modelVersionsOf s name).map
               (fun v => v.version)).foldl max 0 + 1)) ∧
    (∀ (s : Store) (name source run_id : String) (now : Nat)
       (rm : SqlRegisteredModel) (n : Nat),
       _get_registered_model s name = .ok rm →
       modelVersionsOf s name = [] →
       (createSeq s name source run_id now n).1.map
           (fun r => r.map (fun mv => mv.version)) =
         (List.range' 1 n).map Except.ok) := by
  constructor
  · intro s name source run_id now rm hrm
    refine ⟨_, _, create_model_version_step source run_id now hrm, ?_⟩
    have hnv : next_version s rm =
        (if modelVersionsOf s name = [] then 1
         else ((modelVersionsOf s name).map
             (fun v => v.version)).foldl max 0 + 1) := by
      unfold next_version
      rw [lookup_ok_name hrm]
      by_cases h : modelVersionsOf s name = [] <;> simp [h]
    simpa [mkRow] using hnv
  · intro s name source run_id now rm n hrm hempty
    have hl := (createSeq_spec s name source run_id now rm hrm hempty n).2.2
    have hcomp : (fun r : Except MlflowException SqlModelVersion =>
          r.map (fun mv => mv.version)) ∘
        (fun k => (Except.ok (mkRow name source run_id now k) :
            Except MlflowException SqlModelVersion)) = Except.ok := by
      funext k; rfl
    rw [hl, List.map_map, hcomp]

/-- Witness for C1 at concrete inputs: on a fresh one-model store, a single
call returns version 1 and three consecutive calls return versions 1, 2, 3. -/
theorem create_model_version_version_numbering_witness :
    (∃ mv s', create_model_version ⟨[⟨"m", 0, 0, none⟩], []⟩ "m" "s" "r" 7
        (fun _ => false) = (.ok mv, s', 1) ∧
      mv.version = (if modelVersionsOf ⟨[⟨"m", 0, 0, none⟩], []⟩ "m" = [] then 1
        else ((modelVersionsOf ⟨[⟨"m", 0, 0, none⟩], []⟩ "m").map
            (fun v => v.version)).foldl max 0 + 1)) ∧
    (createSeq ⟨[⟨"m", 0, 0, none⟩], []⟩ "m" "s" "r" 7 3).1.map
        (fun r => r.map (fun mv => mv.version)) =
      (List.range' 1 3).map Except.ok :=
  ⟨create_model_version_version_numbering.1 ⟨[⟨"m", 0, 0, none⟩], []⟩
     "m" "s" "r" 7 ⟨"m", 0, 0, none⟩ (by decide),
   create_model_version_version_numbering.2 ⟨[⟨"m", 0, 0, none⟩], []⟩
     "m" "s" "r" 7 ⟨"m", 0, 0, none⟩ 3 (by decide) (by decide)⟩

/-! ### Rename propagation -/

/-- The registered-model row as `update_registered_model` rewrites it on a
rename to `nn`. -/
def renamedRM (rm : SqlRegisteredModel) (nn : String) (desc : Option String) :
    SqlRegisteredModel :=
  { rm with name := nn,
            description := updatedDescription desc rm.description }

theorem update_registered_model_lookup_error {s : Store} {old : String}
    {e : MlflowException} (nn desc : Option String)
    (he : _get_registered_model s old = .error e) :
    update_registered_model s old nn desc = (.error e, s, 1) := by
  unfold update_registered_model
  exact withManagedSession_error (by simp [he, except_bind_error])

theorem update_registered_model_conflict {s : Store} {old X : String}
    {rm : SqlRegisteredModel} (desc : Option String)
    (hrm : _get_registered_model s old = .ok rm)
    (hcond : (X != rm.name &&
      s.registered_models.any (fun r => r.name == X)) = true) :
    update_registered_model s old (some X) desc =
      (.error ⟨s!"Registered Model (name={X}) already exists.",
               some .RESOURCE_ALREADY_EXISTS⟩, s, 1) := by
  unfold update_registered_model
  refine withManagedSession_error ?_
  simp only [hrm, except_bind_ok]
  rw [hcond]
  rfl

theorem update_registered_model_rename_eq {s : Store} {old X : String}
    {rm : SqlRegisteredModel} (desc : Option String)
    (hrm : _get_registered_model s old = .ok rm)
    (hcond : (X != rm.name &&
      s.registered_models.any (fun r => r.name == X)) = false) :
    update_registered_model s old (some X) desc =
      (.ok (renamedRM rm X desc),
       ⟨s.registered_models.map (fun r =>
           if r.name == rm.name then renamedRM rm X desc else r),
        s.model_versions.map (fun mv =>
           if mv.name == rm.name then { mv with name := X } else mv)⟩,
       1) := by
  unfold update_registered_model
  refine withManagedSession_ok ?_
  simp only [hrm, except_bind_ok]
  rw [hcond]
  simp [renamedRM]

theorem filter_key_eq_singleton {l : List SqlModelVersion}
    (hnd : (l.map (fun mv => (mv.name, mv.version))).Nodup)
    {mv : SqlModelVersion} (hm : mv ∈ l) :
    l.filter (fun x => x.name == mv.name && x.version == mv.version) =
      [mv] := by
  induction l with
  | nil => cases hm
  | cons x t ih =>
      rw [List.map_cons, List.nodup_cons] at hnd
      obtain ⟨hx, hnd'⟩ := hnd
      rcases List.mem_cons.mp hm with rfl | hm'
      · rw [List.filter_cons_of_pos (by simp)]
        have ht : t.filter
            (fun x => x.name == mv.name && x.version == mv.version) = [] := by
          rw [List.filter_eq_nil_iff]
          intro y hy
          simp only [Bool.and_eq_true, beq_iff_eq, not_and]
          intro h1 h2
          exact hx (by
            rw [← h1, ← h2]
            exact List.mem_map_of_mem _ hy)
        rw [ht]
      · have hpx : (x.name == mv.name && x.version == mv.version) = false := by
          by_contra hc
          rw [Bool.not_eq_false, Bool.and_eq_true] at hc
          obtain ⟨h1, h2⟩ := hc
          rw [beq_iff_eq] at h1 h2
          exact hx (by
            rw [h1, h2]
            exact List.mem_map_of_mem _ hm')
        rw [List.filter_cons_of_neg (by simp [hpx])]
        exact ih hnd' hm'

/-- Claim C4: a successful `update_registered_model` rename to `X` rewrites
the model row and every owned version row within the same single scoped
transaction, so `get_model_version_details` at `(X, v)` afterwards returns
each previously existing version of the model with `name = X`, and the store
still satisfies referential integrity: no version row references a name with
no registered-model row. -/
theorem update_registered_model_rename_propagates :
    ∀ (s : Store) (old X : String) (desc : Option String)
      (rm' : SqlRegisteredModel) (s' : Store) (k : Nat),
      s.WF →
      update_registered_model s old (some X) desc = (.ok rm', s', k) →
      (∀ mv ∈ s.model_versions, mv.name = old →
        (get_model_version_details s' X mv.version).1 =
          .ok { mv with name := X }) ∧
      (∀ mv' ∈ s'.model_versions,
        ∃ r ∈ s'.registered_models, r.name = mv'.name) ∧
      k = 1 := by
  intro s old X desc rm' s' k hwf hupd
  obtain ⟨hndrm, hndmv, href⟩ := hwf
  rcases hlr : _get_registered_model s old with e | rm
  · rw [update_registered_model_lookup_error (some X) desc hlr] at hupd
    cases hupd
  · cases hcond : (X != rm.name &&
        s.registered_models.any (fun r => r.name == X)) with
    | true =>
        rw [update_registered_model_conflict desc hlr hcond] at hupd
        cases hupd
    | false =>
        rw [update_registered_model_rename_eq desc hlr hcond] at hupd
        rw [Prod.mk.injEq, Prod.mk.injEq] at hupd
        obtain ⟨-, hs', hk⟩ := hupd
        have hrs : s'.registered_models = s.registered_models.map (fun r =>
            if r.name == rm.name then renamedRM rm X desc else r) := by
          rw [← hs']
        have hms : s'.model_versions = s.model_versions.map (fun mv =>
            if mv.name == rm.name then { mv with name := X } else mv) := by
          rw [← hs']
        have hold : rm.name = old := lookup_ok_name hlr
        have hXold : ∀ x ∈ s.model_versions, x.name = X → X = old := by
          intro x hx hxX
          obtain ⟨r, hr, hrn⟩ := href x hx
          have hany : s.registered_models.any (fun r => r.name == X) = true :=
            List.any_eq_true.mpr ⟨r, hr, by simp [hrn, hxX]⟩
          rw [hany, Bool.and_true] at hcond
          have : X = rm.name := by simpa using hcond
          rw [this, hold]
        refine ⟨?_, ?_, hk.symm⟩
        · intro mv hmv hmvold
          have hfilter :
              (s.model_versions.map (fun x =>
                  if x.name == rm.name then { x with name := X } else x)).filter
                (fun x => x.name == X && x.version == mv.version) =
              [{ mv with name := X }] := by
            rw [List.filter_map _ s.model_versions]
            rw [List.filter_congr (q := fun x : SqlModelVersion =>
              x.name == mv.name && x.version == mv.version) ?_]
            · rw [filter_key_eq_singleton hndmv hmv]
              simp [hmvold, hold]
            · intro x hx
              simp only [Function.comp]
              by_cases hxo : x.name = rm.name
              · rw [if_pos (by simp [hxo])]
                simp [hxo, hold, hmvold]
              · rw [if_neg (by simp [hxo])]
                by_cases hxX : x.name = X
                · have hXo := hXold x hx hxX
                  rw [hXo, ← hold] at hxX
                  exact absurd hxX hxo
                · have hxmv : x.name ≠ mv.name := by
                    rw [hmvold, ← hold]
                    exact hxo
                  have h1 : (x.name == X) = false := by simpa using hxX
                  have h2 : (x.name == mv.name) = false := by simpa using hxmv
                  rw [h1, h2]
          have hv : _get_sql_model_version s' X mv.version =
              .ok { mv with name := X } := by
            unfold _get_sql_model_version
            rw [hms, hfilter]
          unfold get_model_version_details
          rw [withManagedSession_ok (by
            rw [hv, except_bind_ok])]
        · intro mv' hmv'
          rw [hms] at hmv'
          obtain ⟨x, hx, hgx⟩ := List.mem_map.mp hmv'
          obtain ⟨r, hr, hrn⟩ := href x hx
          by_cases hxo : x.name = rm.name
          · refine ⟨renamedRM rm X desc, ?_, ?_⟩
            · rw [hrs]
              exact List.mem_map.mpr
                ⟨r, hr, by rw [if_pos (by simp [hrn, hxo])]⟩
            · rw [← hgx, if_pos (by simp [hxo])]
              rfl
          · refine ⟨r, ?_, ?_⟩
            · rw [hrs]
              exact List.mem_map.mpr
                ⟨r, hr, by rw [if_neg (by simp [hrn, hxo])]⟩
            · rw [← hgx, if_neg (by simp [hxo])]
              exact hrn

/-- Witness for C4 at concrete inputs: renaming model "m" (two versions) to
"X" makes both versions readable under the new name with `name = "X"`, and
every version row still references a registered model. -/
theorem update_registered_model_rename_propagates_witness :
    (∀ mv ∈ (⟨[⟨"m", 0, 0, none⟩],
        [⟨"m", 1, 0, 0, "a", "r", "None", none⟩,
         ⟨"m", 2, 0, 0, "b", "r2", "Staging", none⟩]⟩ : Store).model_versions,
      mv.name = "m" →
      (get_model_version_details
          (⟨[⟨"X", 0, 0, none⟩],
            [⟨"X", 1, 0, 0, "a", "r", "None", none⟩,
             ⟨"X", 2, 0, 0, "b", "r2", "Staging", none⟩]⟩ : Store)
          "X" mv.version).1 = .ok { mv with name := "X" }) ∧
    (∀ mv' ∈ (⟨[⟨"X", 0, 0, none⟩],
        [⟨"X", 1, 0, 0, "a", "r", "None", none⟩,
         ⟨"X", 2, 0, 0, "b", "r2", "Staging", none⟩]⟩ : Store).model_versions,
      ∃ r ∈ (⟨[⟨"X", 0, 0, none⟩],
          [⟨"X", 1, 0, 0, "a", "r", "None", none⟩,
           ⟨"X", 2, 0, 0, "b", "r2", "Staging", none⟩]⟩ :
          Store).registered_models, r.name = mv'.name) ∧
    (1 : Nat) = 1 :=
  update_registered_model_rename_propagates
    ⟨[⟨"m", 0, 0, none⟩],
     [⟨"m", 1, 0, 0, "a", "r", "None", none⟩,
      ⟨"m", 2, 0, 0, "b", "r2", "Staging", none⟩]⟩
    "m" "X" none ⟨"X", 0, 0, none⟩
    ⟨[⟨"X", 0, 0, none⟩],
     [⟨"X", 1, 0, 0, "a", "r", "None", none⟩,
      ⟨"X", 2, 0, 0, "b", "r2", "Staging", none⟩]⟩
    1 (by decide) (by decide)

/-! ### Latest-version-per-stage computation -/

theorem maxByVersion_eq_none : ∀ {l : List SqlModelVersion},
    maxByVersion l = none → l = [] := by
  intro l h
  cases l with
  | nil => rfl
  | cons x t =>
      unfold maxByVersion at h
      cases ht : maxByVersion t with
      | none =>
          rw [ht] at h
          dsimp only at h
          cases h
      | some b =>
          rw [ht] at h
          dsimp only at h
          by_cases hgt : b.version > x.version
          · rw [if_pos hgt] at h; cases h
          · rw [if_neg hgt] at h; cases h

theorem maxByVersion_mem : ∀ {l : List SqlModelVersion}
    {m : SqlModelVersion}, maxByVersion l = some m → m ∈ l := by
  intro l
  induction l with
  | nil => intro m h; cases h
  | cons x t ih =>
      intro m h
      unfold maxByVersion at h
      cases ht : maxByVersion t with
      | none =>
          rw [ht] at h
          dsimp only at h
          cases h
          exact List.mem_cons_self x t
      | some best =>
          rw [ht] at h
          dsimp only at h
          by_cases hgt : best.version > x.version
          · rw [if_pos hgt] at h
            cases h
            exact List.mem_cons_of_mem _ (ih ht)
          · rw [if_neg hgt] at h
            cases h
            exact List.mem_cons_self x t

theorem maxByVersion_max : ∀ {l : List SqlModelVersion}
    {m : SqlModelVersion}, maxByVersion l = some m →
    ∀ x ∈ l, x.version ≤ m.version := by
  intro l
  induction l with
  | nil => intro m h; cases h
  | cons a t ih =>
      intro m h x hx
      unfold maxByVersion at h
      cases ht : maxByVersion t with
      | none =>
          rw [ht] at h
          dsimp only at h
          cases h
          have htn := maxByVersion_eq_none ht
          subst htn
          rcases List.mem_singleton.mp hx with rfl
          exact le_refl _
      | some best =>
          rw [ht] at h
          dsimp only at h
          rcases List.mem_cons.mp hx with rfl | hx'
          · by_cases hgt : best.version > x.version
            · rw [if_pos hgt] at h; cases h; omega
            · rw [if_neg hgt] at h; cases h; exact le_refl _
          · have hle := ih ht x hx'
            by_cases hgt : best.version > a.version
            · rw [if_pos hgt] at h; cases h; exact hle
            · rw [if_neg hgt] at h; cases h; omega

theorem latest_versions_mem {s : Store} {name : String}
    {mv : SqlModelVersion} (h : mv ∈ latest_versions s name) :
    mv ∈ modelVersionsOf s name ∧
    ∀ mv' ∈ modelVersionsOf s name,
      mv'.current_stage = mv.current_stage → mv'.version ≤ mv.version := by
  unfold latest_versions at h
  obtain ⟨st, hst, hf⟩ := List.mem_filterMap.mp h
  have hmem := maxByVersion_mem hf
  have hmax := maxByVersion_max hf
  have hmv : mv ∈ modelVersionsOf s name := (List.mem_filter.mp hmem).1
  have hstage : mv.current_stage = st := by
    simpa using (List.mem_filter.mp hmem).2
  refine ⟨hmv, ?_⟩
  intro mv' hmv' hstage'
  exact hmax mv' (List.mem_filter.mpr ⟨hmv', by simp [hstage', hstage]⟩)

theorem filterMap_latest_stage_count (mvs : List SqlModelVersion) :
    ∀ (sts : List String), sts.Nodup → ∀ st,
      ((sts.filterMap (fun st => maxByVersion (mvs.filter
          (fun mv => mv.current_stage == st)))).filter
        (fun mv => mv.current_stage == st)).length ≤ 1 := by
  intro sts
  induction sts with
  | nil => intro _ st; simp
  | cons a t ih =>
      intro hnd st
      rw [List.nodup_cons] at hnd
      obtain ⟨ha, hnd'⟩ := hnd
      rw [List.filterMap_cons]
      cases hfa : maxByVersion (mvs.filter
          (fun mv => mv.current_stage == a)) with
      | none => exact ih hnd' st
      | some m =>
          have hma : m.current_stage = a := by
            simpa using (List.mem_filter.mp (maxByVersion_mem hfa)).2
          rw [List.filter_cons]
          by_cases hst : (m.current_stage == st) = true
          · rw [if_pos hst]
            have hrest : (t.filterMap (fun st => maxByVersion (mvs.filter
                (fun mv => mv.current_stage == st)))).filter
                  (fun mv => mv.current_stage == st) = [] := by
              rw [List.filter_eq_nil_iff]
              intro y hy
              obtain ⟨st2, hst2, hfy⟩ := List.mem_filterMap.mp hy
              have hys : y.current_stage = st2 := by
                simpa using (List.mem_filter.mp (maxByVersion_mem hfy)).2
              have hsta : st = a := by
                rw [beq_iff_eq] at hst
                rw [← hst, hma]
              simp only [beq_iff_eq, hys]
              intro hc
              rw [hc, hsta] at hst2
              exact ha hst2
            rw [hrest]
            simp
          · rw [if_neg hst]
            exact ih hnd' st

theorem get_latest_versions_default {s : Store} {name : String}
    {rm : SqlRegisteredModel} (hrm : _get_registered_model s name = .ok rm) :
    get_latest_versions s name none =
      (.ok ((latest_versions s rm.name).filter (fun mv =>
          DEFAULT_STAGES_FOR_GET_LATEST_VERSIONS.contains mv.current_stage)),
       s, 1) ∧
    get_latest_versions s name (some []) =
      (.ok ((latest_versions s rm.name).filter (fun mv =>
          DEFAULT_STAGES_FOR_GET_LATEST_VERSIONS.contains mv.current_stage)),
       s, 1) := by
  have hm : List.mapM.loop get_canonical_stage ["Staging", "Production"] [] =
      .ok ["Staging", "Production"] := rfl
  constructor
  · unfold get_latest_versions
    exact withManagedSession_ok
      (by simp [hrm, hm, except_bind_ok,
                DEFAULT_STAGES_FOR_GET_LATEST_VERSIONS])
  · unfold get_latest_versions
    exact withManagedSession_ok
      (by simp [hrm, hm, except_bind_ok,
                DEFAULT_STAGES_FOR_GET_LATEST_VERSIONS])

/-- The stage list `get_latest_versions` canonicalizes: the default pair when
`stages` is omitted or empty, the given list otherwise (the
`stages is None or len(stages) == 0` test of the source). -/
def requested_stages (stages : Option (List String)) : List String :=
  match stages with
  | none => DEFAULT_STAGES_FOR_GET_LATEST_VERSIONS
  | some l =>
      if l.length == 0 then DEFAULT_STAGES_FOR_GET_LATEST_VERSIONS else l

theorem get_latest_versions_eq {s : Store} {name : String}
    {rm : SqlRegisteredModel} {stages : Option (List String)}
    {expected : List String}
    (hrm : _get_registered_model s name = .ok rm)
    (hexp : (requested_stages stages).mapM get_canonical_stage =
      .ok expected) :
    get_latest_versions s name stages =
      (.ok ((latest_versions s rm.name).filter (fun mv =>
          expected.contains mv.current_stage)), s, 1) := by
  unfold get_latest_versions
  refine withManagedSession_ok ?_
  cases stages with
  | none =>
      have h3 : List.mapM.loop get_canonical_stage
          DEFAULT_STAGES_FOR_GET_LATEST_VERSIONS [] = .ok expected := hexp
      simp [hrm, except_bind_ok, h3]
  | some l =>
      by_cases hl : (l.length == 0) = true
      · have hll : l = [] := by simpa using hl
        subst hll
        have h3 : List.mapM.loop get_canonical_stage
            DEFAULT_STAGES_FOR_GET_LATEST_VERSIONS [] = .ok expected := by
          simpa [requested_stages] using hexp
        simp [hrm, except_bind_ok, h3]
      · have h3 : List.mapM.loop get_canonical_stage l [] = .ok expected := by
          have h4 : requested_stages (some l) = l := by
            simp only [requested_stages]
            rw [if_neg hl]
          rw [h4] at hexp
          exact hexp
        simp [hrm, except_bind_ok, h3, hl]

theorem maxByVersion_of_mem {l : List SqlModelVersion} {x : SqlModelVersion}
    (hx : x ∈ l) : ∃ m, maxByVersion l = some m := by
  cases hm : maxByVersion l with
  | none =>
      rw [maxByVersion_eq_none hm] at hx
      cases hx
  | some m => exact ⟨m, rfl⟩

/-- Claim C5: `get_latest_versions` computes, for each requested stage — the
default pre-production/production pair when `stages` is omitted or empty, the
canonicalized given list otherwise — at most one entry: whenever the model
has versions in a requested stage, the entry for that stage is present and is
the version with the highest version number in that stage; requested stages
with no matching version are simply absent from the result, not an error.  On
the concrete model with versions v1(None), v2(Staging), v3(Production),
v4(Staging) the default call returns exactly v3 for Production and v4 for
Staging. -/
theorem get_latest_versions_spec :
    requested_stages none = DEFAULT_STAGES_FOR_GET_LATEST_VERSIONS ∧
    requested_stages (some []) = DEFAULT_STAGES_FOR_GET_LATEST_VERSIONS ∧
    (∀ (s : Store) (name : String) (rm : SqlRegisteredModel)
       (stages : Option (List String)) (expected : List String),
       _get_registered_model s name = .ok rm →
       (requested_stages stages).mapM get_canonical_stage = .ok expected →
       ∃ r, get_latest_versions s name stages = (.ok r, s, 1) ∧
         (∀ st, (r.filter (fun mv => mv.current_stage == st)).length ≤ 1) ∧
         (∀ mv ∈ r,
           mv ∈ modelVersionsOf s name ∧
           mv.current_stage ∈ expected ∧
           ∀ mv' ∈ modelVersionsOf s name,
             mv'.current_stage = mv.current_stage →
             mv'.version ≤ mv.version) ∧
         (∀ st ∈ expected, ∀ mv0 ∈ modelVersionsOf s name,
           mv0.current_stage = st →
           ∃ mv ∈ r, mv.current_stage = st ∧ mv0.version ≤ mv.version)) ∧
    (get_latest_versions
        ⟨[⟨"m", 0, 0, none⟩],
         [⟨"m", 1, 0, 0, "a", "r", "None", none⟩,
          ⟨"m", 2, 0, 0, "a", "r", "Staging", none⟩,
          ⟨"m", 3, 0, 0, "a", "r", "Production", none⟩,
          ⟨"m", 4, 0, 0, "a", "r", "Staging", none⟩]⟩ "m" none).1 =
      .ok [⟨"m", 3, 0, 0, "a", "r", "Production", none⟩,
           ⟨"m", 4, 0, 0, "a", "r", "Staging", none⟩] := by
  refine ⟨rfl, rfl, ?_, by decide⟩
  intro s name rm stages expected hrm hexp
  refine ⟨_, get_latest_versions_eq hrm hexp, ?_, ?_, ?_⟩
  · intro st
    have hlat : ((latest_versions s rm.name).filter
        (fun mv => mv.current_stage == st)).length ≤ 1 := by
      unfold latest_versions
      exact filterMap_latest_stage_count (modelVersionsOf s rm.name)
        (((modelVersionsOf s rm.name).map
          (fun mv => mv.current_stage)).dedup)
        (List.nodup_dedup _) st
    have hcomm : ((latest_versions s rm.name).filter (fun mv =>
          expected.contains mv.current_stage)).filter
        (fun mv => mv.current_stage == st) =
      ((latest_versions s rm.name).filter
          (fun mv => mv.current_stage == st)).filter (fun mv =>
        expected.contains mv.current_stage) := by
      rw [List.filter_filter, List.filter_filter]
      exact List.filter_congr (fun x _ => by rw [Bool.and_comm])
    rw [hcomm]
    exact le_trans (List.length_filter_le _ _) hlat
  · intro mv hmv
    rw [List.mem_filter] at hmv
    obtain ⟨hlatest, hdef⟩ := hmv
    obtain ⟨hmem, hmax⟩ := latest_versions_mem hlatest
    rw [lookup_ok_name hrm] at hmem hmax
    refine ⟨hmem, ?_, hmax⟩
    simpa using hdef
  · intro st hst mv0 hmv0 hstage
    rw [← lookup_ok_name hrm] at hmv0
    have hmv0F : mv0 ∈ (modelVersionsOf s rm.name).filter
        (fun mv => mv.current_stage == st) :=
      List.mem_filter.mpr ⟨hmv0, by simp [hstage]⟩
    obtain ⟨m, hm⟩ := maxByVersion_of_mem hmv0F
    have hmF := maxByVersion_mem hm
    have hmmv : m ∈ modelVersionsOf s rm.name :=
      (List.mem_filter.mp hmF).1
    have hmst : m.current_stage = st := by
      simpa using (List.mem_filter.mp hmF).2
    have hstdedup : st ∈ ((modelVersionsOf s rm.name).map
        (fun mv => mv.current_stage)).dedup := by
      rw [List.mem_dedup]
      exact hstage ▸ List.mem_map_of_mem _ hmv0
    have hmlat : m ∈ latest_versions s rm.name := by
      unfold latest_versions
      exact List.mem_filterMap.mpr ⟨st, hstdedup, hm⟩
    refine ⟨m, ?_, hmst, maxByVersion_max hm mv0 hmv0F⟩
    refine List.mem_filter.mpr ⟨hmlat, ?_⟩
    rw [hmst]
    simpa using hst

/-- Witness for C5 at concrete inputs: on the four-version model, the default
request and the explicit single-stage requests ["Archived"] (empty result, no
error) and ["staging"] (canonicalized, returns the maximal Staging version)
instantiate the universal part of the theorem. -/
theorem get_latest_versions_spec_witness :
    (∃ r, get_latest_versions
        ⟨[⟨"m", 0, 0, none⟩],
         [⟨"m", 1, 0, 0, "a", "r", "None", none⟩,
          ⟨"m", 2, 0, 0, "a", "r", "Staging", none⟩,
          ⟨"m", 3, 0, 0, "a", "r", "Production", none⟩,
          ⟨"m", 4, 0, 0, "a", "r", "Staging", none⟩]⟩ "m" none =
        (.ok r,
         ⟨[⟨"m", 0, 0, none⟩],
          [⟨"m", 1, 0, 0, "a", "r", "None", none⟩,
           ⟨"m", 2, 0, 0, "a", "r", "Staging", none⟩,
           ⟨"m", 3, 0, 0, "a", "r", "Production", none⟩,
           ⟨"m", 4, 0, 0, "a", "r", "Staging", none⟩]⟩, 1) ∧
      (∀ st, (r.filter (fun mv => mv.current_stage == st)).length ≤ 1) ∧
      (∀ mv ∈ r,
        mv ∈ modelVersionsOf
          ⟨[⟨"m", 0, 0, none⟩],
           [⟨"m", 1, 0, 0, "a", "r", "None", none⟩,
            ⟨"m", 2, 0, 0, "a", "r", "Staging", none⟩,
            ⟨"m", 3, 0, 0, "a", "r", "Production", none⟩,
            ⟨"m", 4, 0, 0, "a", "r", "Staging", none⟩]⟩ "m" ∧
        mv.current_stage ∈ ["Staging", "Production"] ∧
        ∀ mv' ∈ modelVersionsOf
            ⟨[⟨"m", 0, 0, none⟩],
             [⟨"m", 1, 0, 0, "a", "r", "None", none⟩,
              ⟨"m", 2, 0, 0, "a", "r", "Staging", none⟩,
              ⟨"m", 3, 0, 0, "a", "r", "Production", none⟩,
              ⟨"m", 4, 0, 0, "a", "r", "Staging", none⟩]⟩ "m",
          mv'.current_stage = mv.current_stage →
          mv'.version ≤ mv.version) ∧
      (∀ st ∈ ["Staging", "Production"], ∀ mv0 ∈ modelVersionsOf
          ⟨[⟨"m", 0, 0, none⟩],
           [⟨"m", 1, 0, 0, "a", "r", "None", none⟩,
            ⟨"m", 2, 0, 0, "a", "r", "Staging", none⟩,
            ⟨"m", 3, 0, 0, "a", "r", "Production", none⟩,
            ⟨"m", 4, 0, 0, "a", "r", "Staging", none⟩]⟩ "m",
        mv0.current_stage = st →
        ∃ mv ∈ r, mv.current_stage = st ∧ mv0.version ≤ mv.version)) ∧
    (∃ r, get_latest_versions
        ⟨[⟨"m", 0, 0, none⟩],
         [⟨"m", 1, 0, 0, "a", "r", "None", none⟩,
          ⟨"m", 2, 0, 0, "a", "r", "Staging", none⟩,
          ⟨"m", 3, 0, 0, "a", "r", "Production", none⟩,
          ⟨"m", 4, 0, 0, "a", "r", "Staging", none⟩]⟩ "m"
          (some ["Archived"]) =
        (.ok r,
         ⟨[⟨"m", 0, 0, none⟩],
          [⟨"m", 1, 0, 0, "a", "r", "None", none⟩,
           ⟨"m", 2, 0, 0, "a", "r", "Staging", none⟩,
           ⟨"m", 3, 0, 0, "a", "r", "Production", none⟩,
           ⟨"m", 4, 0, 0, "a", "r", "Staging", none⟩]⟩, 1) ∧
      (∀ st, (r.filter (fun mv => mv.current_stage == st)).length ≤ 1) ∧
      (∀ mv ∈ r,
        mv ∈ modelVersionsOf
          ⟨[⟨"m", 0, 0, none⟩],
           [⟨"m", 1, 0, 0, "a", "r", "None", none⟩,
            ⟨"m", 2, 0, 0, "a", "r", "Staging", none⟩,
            ⟨"m", 3, 0, 0, "a", "r", "Production", none⟩,
            ⟨"m", 4, 0, 0, "a", "r", "Staging", none⟩]⟩ "m" ∧
        mv.current_stage ∈ ["Archived"] ∧
        ∀ mv' ∈ modelVersionsOf
            ⟨[⟨"m", 0, 0, none⟩],
             [⟨"m", 1, 0, 0, "a", "r", "None", none⟩,
              ⟨"m", 2, 0, 0, "a", "r", "Staging", none⟩,
              ⟨"m", 3, 0, 0, "a", "r", "Production", none⟩,
              ⟨"m", 4, 0, 0, "a", "r", "Staging", none⟩]⟩ "m",
          mv'.current_stage = mv.current_stage →
          mv'.version ≤ mv.version) ∧
      (∀ st ∈ ["Archived"], ∀ mv0 ∈ modelVersionsOf
          ⟨[⟨"m", 0, 0, none⟩],
           [⟨"m", 1, 0, 0, "a", "r", "None", none⟩,
            ⟨"m", 2, 0, 0, "a", "r", "Staging", none⟩,
            ⟨"m", 3, 0, 0, "a", "r", "Production", none⟩,
            ⟨"m", 4, 0, 0, "a", "r", "Staging", none⟩]⟩ "m",
        mv0.current_stage = st →
        ∃ mv ∈ r, mv.current_stage = st ∧ mv0.version ≤ mv.version)) ∧
    (∃ r, get_latest_versions
        ⟨[⟨"m", 0, 0, none⟩],
         [⟨"m", 1, 0, 0, "a", "r", "None", none⟩,
          ⟨"m", 2, 0, 0, "a", "r", "Staging", none⟩,
          ⟨"m", 3, 0, 0, "a", "r", "Production", none⟩,
          ⟨"m", 4, 0, 0, "a", "r", "Staging", none⟩]⟩ "m"
          (some ["staging"]) =
        (.ok r,
         ⟨[⟨"m", 0, 0, none⟩],
          [⟨"m", 1, 0, 0, "a", "r", "None", none⟩,
           ⟨"m", 2, 0, 0, "a", "r", "Staging", none⟩,
           ⟨"m", 3, 0, 0, "a", "r", "Production", none⟩,
           ⟨"m", 4, 0, 0, "a", "r", "Staging", none⟩]⟩, 1) ∧
      (∀ st, (r.filter (fun mv => mv.current_stage == st)).length ≤ 1) ∧
      (∀ mv ∈ r,
        mv ∈ modelVersionsOf
          ⟨[⟨"m", 0, 0, none⟩],
           [⟨"m", 1, 0, 0, "a", "r", "None", none⟩,
            ⟨"m", 2, 0, 0, "a", "r", "Staging", none⟩,
            ⟨"m", 3, 0, 0, "a", "r", "Production", none⟩,
            ⟨"m", 4, 0, 0, "a", "r", "Staging", none⟩]⟩ "m" ∧
        mv.current_stage ∈ ["Staging"] ∧
        ∀ mv' ∈ modelVersionsOf
            ⟨[⟨"m", 0, 0, none⟩],
             [⟨"m", 1, 0, 0, "a", "r", "None", none⟩,
              ⟨"m", 2, 0, 0, "a", "r", "Staging", none⟩,
              ⟨"m", 3, 0, 0, "a", "r", "Production", none⟩,
              ⟨"m", 4, 0, 0, "a", "r", "Staging", none⟩]⟩ "m",
          mv'.current_stage = mv.current_stage →
          mv'.version ≤ mv.version) ∧
      (∀ st ∈ ["Staging"], ∀ mv0 ∈ modelVersionsOf
          ⟨[⟨"m", 0, 0, none⟩],
           [⟨"m", 1, 0, 0, "a", "r", "None", none⟩,
            ⟨"m", 2, 0, 0, "a", "r", "Staging", none⟩,
            ⟨"m", 3, 0, 0, "a", "r", "Production", none⟩,
            ⟨"m", 4, 0, 0, "a", "r", "Staging", none⟩]⟩ "m",
        mv0.current_stage = st →
        ∃ mv ∈ r, mv.current_stage = st ∧ mv0.version ≤ mv.version)) :=
  ⟨get_latest_versions_spec.2.2.1
     ⟨[⟨"m", 0, 0, none⟩],
      [⟨"m", 1, 0, 0, "a", "r", "None", none⟩,
       ⟨"m", 2, 0, 0, "a", "r", "Staging", none⟩,
       ⟨"m", 3, 0, 0, "a", "r", "Production", none⟩,
       ⟨"m", 4, 0, 0, "a", "r", "Staging", none⟩]⟩ "m"
     ⟨"m", 0, 0, none⟩ none ["Staging", "Production"] (by decide) (by decide),
   get_latest_versions_spec.2.2.1
     ⟨[⟨"m", 0, 0, none⟩],
      [⟨"m", 1, 0, 0, "a", "r", "None", none⟩,
       ⟨"m", 2, 0, 0, "a", "r", "Staging", none⟩,
       ⟨"m", 3, 0, 0, "a", "r", "Production", none⟩,
       ⟨"m", 4, 0, 0, "a", "r", "Staging", none⟩]⟩ "m"
     ⟨"m", 0, 0, none⟩ (some ["Archived"]) ["Archived"]
     (by decide) (by decide),
   get_latest_versions_spec.2.2.1
     ⟨[⟨"m", 0, 0, none⟩],
      [⟨"m", 1, 0, 0, "a", "r", "None", none⟩,
       ⟨"m", 2, 0, 0, "a", "r", "Staging", none⟩,
       ⟨"m", 3, 0, 0, "a", "r", "Production", none⟩,
       ⟨"m", 4, 0, 0, "a", "r", "Staging", none⟩]⟩ "m"
     ⟨"m", 0, 0, none⟩ (some ["staging"]) ["Staging"]
     (by decide) (by decide)⟩

end MlflowRegistry
